import Mathlib

/-!
Shallow embedding of the decision logic of the termux-sentinel monitoring
toolkit (src/probe.py, src/database.py, src/nids.py, src/config.py), with
theorems checking the natural-language specification against it.

HTTP calls are modelled by passing each endpoint response as an explicit
argument: `Resp.ok` carries the parsed body, `Resp.fail` stands for any
exception raised by `requests` (timeout, connection error, non-2xx raised by
`raise_for_status`, JSON decode failure).  Wall-clock instants are passed as
explicit `Int` arguments (seconds).  SQLite tables are lists of rows.
-/

/-- Outcome of one HTTP request as seen by the calling Python code: either a
successfully parsed body or an exception. -/
inductive Resp (α : Type) : Type
  | ok (body : α)
  | fail
deriving DecidableEq

/-- A JSON value, as returned by `response.json()`.  Objects are association
lists; numbers are modelled as rationals. -/
inductive Json : Type
  | null
  | bool (b : Bool)
  | num (q : ℚ)
  | str (s : String)
  | arr (xs : List Json)
  | obj (kvs : List (String × Json))

/-- Python `d.get(key, default)` on a JSON value: returns the value (or the
default when the key is absent) when `d` is a dict, and `none` when `d` is
any other value, modelling the `AttributeError` raised there (which
`get_monero_hashrate` catches and converts to `None`). -/
def pyGet (j : Json) (key : String) (dflt : Json) : Option Json :=
  match j with
  | Json.obj kvs =>
      match kvs.lookup key with
      | some v => some v
      | none => some dflt
  | _ => none

/-- Python `x[0]` on a JSON value: first element of a list, first character of
a string, and `none` for every other shape, modelling the `IndexError`,
`KeyError` or `TypeError` raised there (all caught by the probe). -/
def pyIndex0 (j : Json) : Option Json :=
  match j with
  | Json.arr (x :: _) => some x
  | Json.arr [] => none
  | Json.str s =>
      match s.data with
      | c :: _ => some (Json.str (String.mk [c]))
      | [] => none
  | _ => none

/-- The extraction `data.get("hashrate", \x7b\x7d).get("total", [0])[0]` from
src/probe.py line 52, with every exception mapped to `none` (the surrounding
`except` clauses all return `None`). -/
def extractHashrate (data : Json) : Option Json :=
  (pyGet data "hashrate" (Json.obj [])).bind fun h =>
    (pyGet h "total" (Json.arr [Json.num 0])).bind pyIndex0

/-- Outcome of the GET to `http://host:port/2/summary` as seen by
`get_monero_hashrate`: the distinguished exception classes it catches, or a
2xx response whose JSON body parsed. -/
inductive MinerResp : Type
  | timeout
  | connError
  | httpError
  | jsonError
  | ok (body : Json)

/-- src/probe.py lines 34-68: `get_monero_hashrate`.  Every caught exception
path returns `None`; a parsed 2xx body goes through the hashrate extraction. -/
def get_monero_hashrate (r : MinerResp) : Option Json :=
  match r with
  | MinerResp.timeout => none
  | MinerResp.connError => none
  | MinerResp.httpError => none
  | MinerResp.jsonError => none
  | MinerResp.ok body => extractHashrate body

-- P2Pool pool reconciliation (src/probe.py get_p2pool_stats)

/-- src/config.py line 23: `P2POOL_WINDOW_SIZE = 2160`. -/
def P2POOL_WINDOW_SIZE : Int := 2160

/-- One entry of the `shares` array of the miner-info response, as read by
`get_p2pool_stats` (`.get('shares', 0)` / `.get('uncles', 0)`). -/
structure ShareBucket where
  shares : Nat
  uncles : Nat
deriving DecidableEq

/-- One share object of an `api/shares` response, as read by
`get_p2pool_stats` (`.get('side_height', 0)` / `.get('uncle', False)`). -/
structure MinerShare where
  side_height : Int
  uncle : Bool
deriving DecidableEq

/-- Blocks-found / payouts-sent are Python ints, degraded to the string
`"N/A"` when their (secondary) request fails. -/
inductive IntOrNA : Type
  | val (n : Nat)
  | na
deriving DecidableEq

/-- The 6-tuple returned by a successful `get_p2pool_stats`, in source
order: `(blocks_found, shares_held, payouts_sent, active_shares,
active_uncles, total_shares)`. -/
structure PoolStats where
  blocks_found : IntOrNA
  shares_held : Nat
  payouts_sent : IntOrNA
  active_shares : Nat
  active_uncles : Nat
  total_shares : Nat
deriving DecidableEq

/-- src/probe.py lines 109-110: all-time total shares are the `shares` field
of index 1 of the miner-info `shares` array, defaulting to 0 when the array
has fewer than two entries. -/
def totalSharesOf (buckets : List ShareBucket) : Nat :=
  match buckets with
  | _ :: b :: _ => b.shares
  | _ => 0

/-- src/probe.py lines 148-160: the window walk.  Counts shares (and uncles
among them) while `side_height >= window_start`, and `break`s at the first
share below the window, never examining the rest of the list. -/
def countActive (window_start : Int) : List MinerShare → Nat × Nat
  | [] => (0, 0)
  | s :: rest =>
      if window_start ≤ s.side_height then
        let p := countActive window_start rest
        (p.1 + 1, if s.uncle then p.2 + 1 else p.2)
      else
        (0, 0)

/-- src/probe.py lines 71-227: `get_p2pool_stats`.  The three primary
responses (miner-info, network latest share, miner shares) are fatal on
failure (`none` = the all-`None` tuple of the source); the two secondary
responses (blocks, payouts) degrade to `"N/A"`.  Of the blocks and payouts
responses the code only uses the length of the returned list, so the
argument carries that length. -/
def get_p2pool_stats (miner_address : String)
    (info : Resp (List ShareBucket)) (ls : Resp (List MinerShare))
    (ms : Resp (List MinerShare)) (blocks : Resp Nat) (payouts : Resp Nat) :
    Option PoolStats :=
  if miner_address = "" then none
  else
    match info with
    | Resp.fail => none
    | Resp.ok shares_data =>
      let total_shares := totalSharesOf shares_data
      match ls with
      | Resp.fail => none
      | Resp.ok ls_data =>
        match ls_data with
        | [] => some ⟨IntOrNA.na, 0, IntOrNA.na, 0, 0, total_shares⟩
        | first :: _ =>
          let current_height := first.side_height
          match ms with
          | Resp.fail => none
          | Resp.ok miner_shares =>
            let window_start := current_height - P2POOL_WINDOW_SIZE
            let active := countActive window_start miner_shares
            let blocks_found :=
              match blocks with
              | Resp.ok n => IntOrNA.val n
              | Resp.fail => IntOrNA.na
            let payouts_count :=
              match payouts with
              | Resp.ok n => IntOrNA.val n
              | Resp.fail => IntOrNA.na
            some ⟨blocks_found, active.1, payouts_count, active.1, active.2,
                  total_shares⟩

-- The SQLite store (src/database.py)

/-- Row of the `miners` table (src/database.py lines 47-57). -/
structure MinerRow where
  host : String
  last_seen : Int
  hashrate : Option ℚ
  cpu_usage : Option ℚ
  ram_usage : Option ℚ
  status : String
deriving DecidableEq

/-- Row of the `miner_history` table (src/database.py lines 60-71). -/
structure MinerHistRow where
  host : String
  timestamp : Int
  hashrate : Option ℚ
  cpu_usage : Option ℚ
  ram_usage : Option ℚ
  status : String
deriving DecidableEq

/-- Row of the `p2pool_stats` table (src/database.py lines 74-86). -/
structure PoolStatRow where
  miner_address : String
  last_seen : Int
deriving DecidableEq

/-- Row of the `p2pool_history` table (src/database.py lines 89-98). -/
structure PoolHistRow where
  miner_address : String
  timestamp : Int
  active_shares : Nat
  total_shares : Nat
deriving DecidableEq

/-- Row of the `alerts` table (src/database.py lines 101-112).
`acknowledged` defaults to 0 (modelled as `Bool`). -/
structure AlertRow where
  id : Nat
  timestamp : Int
  type : String
  details : String
  acknowledged : Bool
  severity : String
  source_ip : Option String
  source_mac : Option String
deriving DecidableEq

/-- State of the SQLite database of `SentinelDB`: one list of rows per
table.  `alertSeq` models the AUTOINCREMENT counter of `alerts.id`. -/
structure SentinelDB where
  miners : List MinerRow
  minerHistory : List MinerHistRow
  p2poolStats : List PoolStatRow
  p2poolHistory : List PoolHistRow
  alerts : List AlertRow
  alertSeq : Nat
deriving DecidableEq

/-- src/database.py line 144: `status = "Online" if hashrate is not None
else "Offline"`. -/
def statusOf (hashrate : Option ℚ) : String :=
  if hashrate.isSome then "Online" else "Offline"

/-- src/database.py lines 135-162: `SentinelDB.upsert_miner`.  One
INSERT ... ON CONFLICT(host) DO UPDATE into `miners` and one INSERT into
`miner_history`, both stamped with the same `timestamp` taken once at entry
(`now`). -/
def SentinelDB.upsert_miner (db : SentinelDB) (now : Int) (host : String)
    (hashrate : Option ℚ) (cpu ram : Option ℚ) : SentinelDB :=
  let status := statusOf hashrate
  let row : MinerRow := ⟨host, now, hashrate, cpu, ram, status⟩
  let miners :=
    if db.miners.any (fun r => r.host == host) then
      db.miners.map (fun r => if r.host == host then row else r)
    else
      db.miners ++ [row]
  { db with
      miners := miners,
      minerHistory := db.minerHistory ++ [⟨host, now, hashrate, cpu, ram, status⟩] }

/-- `SELECT * FROM miners WHERE host = ?` (src/database.py lines 211-217). -/
def SentinelDB.findMiner (db : SentinelDB) (host : String) : Option MinerRow :=
  db.miners.find? (fun r => r.host == host)

/-- src/database.py lines 257-268: `SentinelDB.cleanup_old_data`.  `cutoff =
now - timedelta(days=days)`; DELETE FROM miner_history / p2pool_history
WHERE timestamp < cutoff.  No other table is touched. -/
def SentinelDB.cleanup_old_data (db : SentinelDB) (now : Int) (days : Int) :
    SentinelDB :=
  let cutoff := now - days * 86400
  { db with
      minerHistory := db.minerHistory.filter (fun r => !decide (r.timestamp < cutoff)),
      p2poolHistory := db.p2poolHistory.filter (fun r => !decide (r.timestamp < cutoff)) }

/-- src/database.py lines 294-304: `SentinelDB.add_alert`.  INSERT one row
into `alerts` with `acknowledged` at its default 0. -/
def SentinelDB.add_alert (db : SentinelDB) (now : Int) (alert_type : String)
    (details : String) (severity : String)
    (source_ip source_mac : Option String) : SentinelDB :=
  { db with
      alerts := db.alerts ++
        [⟨db.alertSeq, now, alert_type, details, false, severity, source_ip, source_mac⟩],
      alertSeq := db.alertSeq + 1 }

/-- src/database.py lines 325-329: `SentinelDB.acknowledge_alert`.
`UPDATE alerts SET acknowledged = 1 WHERE id = ?`. -/
def SentinelDB.acknowledge_alert (db : SentinelDB) (alert_id : Nat) : SentinelDB :=
  { db with
      alerts := db.alerts.map (fun a =>
        if a.id == alert_id then { a with acknowledged := true } else a) }

-- Spoof Watch (src/nids.py), with the missing ARP store modelled from the spec

/-- Modelled from the spec: the durable ARP record read by
`SentinelDB.get_arp_entry` (called at src/nids.py line 60 but not defined in
src/database.py).  Per spec section 4.5 the record is kept for a
(network-address, new-hardware-address) pair and carries the time it was
last alerted, if ever. -/
structure ArpEntry where
  ip : String
  mac : String
  last_alerted : Option Int
deriving DecidableEq

/-- One durable quiet-log observation entry (spec section 4.5: "a durable
quiet log entry is recorded even when no alert fires"). -/
structure ArpObs where
  ip : String
  mac : String
  time : Int
deriving DecidableEq

/-- Modelled from the spec: the durable side of the ARP store behind
`get_arp_entry` / `update_arp_entry`, both called from
`nids.arp_spoof_detector` but absent from src/database.py: pair-keyed
records plus the append-only quiet observation log. -/
structure ArpStore where
  entries : List ArpEntry
  log : List ArpObs
deriving DecidableEq

/-- Modelled from the spec: `SentinelDB.get_arp_entry(src_ip, src_mac)`
(src/nids.py line 60) looks up the stored record for "this
(network-address, new-hardware-address) pair" (spec section 4.5). -/
def get_arp_entry (st : ArpStore) (ip mac : String) : Option ArpEntry :=
  st.entries.find? (fun e => e.ip == ip && e.mac == mac)

/-- Modelled from the spec: `SentinelDB.update_arp_entry(src_ip, src_mac,
alerted)` (src/nids.py lines 103 and 106) upserts the pair's durable record
— "update the durable record marking it alerted at the current time" when
`alerted`, leaving the previous alert time otherwise — and records one
durable quiet log entry for the observation. -/
def update_arp_entry (st : ArpStore) (ip mac : String) (alerted : Bool)
    (now : Int) : ArpStore :=
  let entries :=
    if st.entries.any (fun e => e.ip == ip && e.mac == mac) then
      st.entries.map (fun e =>
        if e.ip == ip && e.mac == mac then
          { e with last_alerted := if alerted then some now else e.last_alerted }
        else e)
    else
      st.entries ++ [⟨ip, mac, if alerted then some now else none⟩]
  ⟨entries, st.log ++ [⟨ip, mac, now⟩]⟩

/-- The fields of a scapy ARP layer read by the detector: `op`, `psrc`,
`hwsrc`. -/
structure ArpPacket where
  op : Nat
  psrc : String
  hwsrc : String
deriving DecidableEq

/-- Full state touched by the NIDS handler: the database, the durable ARP
store, and the in-memory `arp_table` dict (src/nids.py line 19), modelled as
an association list. -/
structure NidsState where
  db : SentinelDB
  arp : ArpStore
  arpTable : List (String × String)
deriving DecidableEq

/-- `arp_table[src_ip] = src_mac` (src/nids.py line 109). -/
def setArpTable (t : List (String × String)) (ip mac : String) :
    List (String × String) :=
  if t.any (fun p => p.1 == ip) then
    t.map (fun p => if p.1 == ip then (ip, mac) else p)
  else
    t ++ [(ip, mac)]

/-- The alert text of src/nids.py lines 75-85 (interpolated fields only, the
advisory text abbreviated). -/
def alertDetails (ip prevMac newMac : String) : String :=
  "Potential ARP Spoofing Detected!\nIP Address: " ++ ip ++
    "\nPrevious MAC: " ++ prevMac ++ "\nNew MAC (Suspicious): " ++ newMac ++
    "\n\nRecommended Action: Investigate this host immediately."

/-- src/nids.py lines 41-109: `arp_spoof_detector`, one call per captured
packet.  On an ARP request or reply (`op in (1, 2)`): if the IP was seen
before with a different MAC, consult the pair's durable record and alert
unless it was alerted less than 86400 seconds ago, then upsert the durable
record; otherwise record a quiet observation; finally update the in-memory
table.  Other packets leave the state untouched. -/
def arp_spoof_detector (now : Int) (pkt : ArpPacket) (st : NidsState) :
    NidsState :=
  if pkt.op = 1 ∨ pkt.op = 2 then
    let src_ip := pkt.psrc
    let src_mac := pkt.hwsrc
    let st1 :=
      match st.arpTable.lookup src_ip with
      | some prevMac =>
        if prevMac ≠ src_mac then
          let entry := get_arp_entry st.arp src_ip src_mac
          let should_alert :=
            match entry with
            | some e =>
              match e.last_alerted with
              | some t => decide (86400 ≤ now - t)
              | none => true
            | none => true
          let db1 :=
            if should_alert then
              st.db.add_alert now "ARP Spoofing"
                (alertDetails src_ip prevMac src_mac) "high"
                (some src_ip) (some src_mac)
            else st.db
          { st with db := db1,
                    arp := update_arp_entry st.arp src_ip src_mac should_alert now }
        else
          { st with arp := update_arp_entry st.arp src_ip src_mac false now }
      | none =>
        { st with arp := update_arp_entry st.arp src_ip src_mac false now }
    { st1 with arpTable := setArpTable st1.arpTable src_ip src_mac }
  else st

/-- The empty database (freshly created schema). -/
def emptyDB : SentinelDB := ⟨[], [], [], [], [], 0⟩

/-- Initial NIDS process state: empty database, empty durable ARP store,
empty in-memory `arp_table`. -/
def nidsEmpty : NidsState := ⟨emptyDB, ⟨[], []⟩, []⟩

/-- Feed a sequence of timestamped ARP packets to the detector, one at a
time in arrival order (the sniffer calls `arp_spoof_detector` per packet). -/
def runEvents (evs : List (Int × ArpPacket)) (st : NidsState) : NidsState :=
  evs.foldl (fun s e => arp_spoof_detector e.1 e.2 s) st

/-- The event sequence of the spoof-watch scenario: ip A seen with M1, then
M2, then M3, then flips back within the cooldown, and finally an event after
the (A, M2) cooldown has expired. -/
def c4Events : List (Int × ArpPacket) :=
  [(0, ⟨1, "A", "M1"⟩), (10, ⟨1, "A", "M2"⟩), (20, ⟨1, "A", "M3"⟩),
   (30, ⟨1, "A", "M2"⟩), (40, ⟨1, "A", "M3"⟩), (100000, ⟨1, "A", "M2"⟩)]

-- Theorems

/-- The window walk of `get_p2pool_stats` counts exactly the shares of the
longest prefix lying inside the window (uncles counted among them
separately). -/
lemma countActive_eq_takeWhile (ws : Int) (l : List MinerShare) :
    countActive ws l
      = ((l.takeWhile (fun x => decide (ws ≤ x.side_height))).length,
         ((l.takeWhile (fun x => decide (ws ≤ x.side_height))).filter
           (fun x => x.uncle)).length) := by
  induction l with
  | nil => simp [countActive]
  | cons x l ih =>
    by_cases hx : ws ≤ x.side_height
    · simp [countActive, hx, List.takeWhile_cons, List.filter_cons, ih]
      cases hu : x.uncle <;> simp
    · simp [countActive, hx, List.takeWhile_cons]

/-- The window walk never looks past the first below-window share: whatever
follows it leaves the counters unchanged. -/
lemma countActive_stops (ws : Int) (l1 : List MinerShare) (s : MinerShare)
    (l2 : List MinerShare) (h1 : ∀ x ∈ l1, ws ≤ x.side_height)
    (hs : s.side_height < ws) :
    countActive ws (l1 ++ s :: l2) = countActive ws l1 := by
  induction l1 with
  | nil => simp [countActive, not_le.mpr hs]
  | cons x l1 ih =>
    have hx : ws ≤ x.side_height := h1 x (by simp)
    have ih2 := ih (fun y hy => h1 y (by simp [hy]))
    simp [countActive, hx, ih2]

/-- C1: for every current height `h` and share list, the reconciliation
counts as active exactly the shares with height at least `h - 2160` that
appear before the first share below `h - 2160` (uncles among them counted
separately); iteration stops at the first below-window share, so trailing
entries after it never change the counts; and on height 1000 with share
heights [1000, 500, -2000] the active-share count is 2. -/
theorem countActive_window_prefix (h : Int) (l l2 : List MinerShare)
    (s : MinerShare) (hs : s.side_height < h - P2POOL_WINDOW_SIZE) :
    (countActive (h - P2POOL_WINDOW_SIZE) l
        = ((l.takeWhile (fun x =>
              decide (h - P2POOL_WINDOW_SIZE ≤ x.side_height))).length,
           ((l.takeWhile (fun x =>
              decide (h - P2POOL_WINDOW_SIZE ≤ x.side_height))).filter
             (fun x => x.uncle)).length))
    ∧ countActive (h - P2POOL_WINDOW_SIZE)
        ((l.takeWhile (fun x =>
            decide (h - P2POOL_WINDOW_SIZE ≤ x.side_height))) ++ s :: l2)
      = countActive (h - P2POOL_WINDOW_SIZE)
          (l.takeWhile (fun x =>
            decide (h - P2POOL_WINDOW_SIZE ≤ x.side_height)))
    ∧ (get_p2pool_stats "addr" (Resp.ok [⟨0, 0⟩, ⟨7, 0⟩])
        (Resp.ok [⟨1000, false⟩])
        (Resp.ok [⟨1000, false⟩, ⟨500, false⟩, ⟨-2000, false⟩])
        (Resp.ok 1) (Resp.ok 2)).map PoolStats.active_shares = some 2 := by
  refine ⟨countActive_eq_takeWhile _ l, ?_, by decide⟩
  exact countActive_stops _ _ s l2
    (fun x hx => by simpa using List.mem_takeWhile_imp hx) hs

/-- C1 witness: the theorem applied at height 1000, the three-share list,
and a below-window share of height -3000. -/
theorem countActive_window_prefix_witness :
    (countActive (1000 - P2POOL_WINDOW_SIZE)
        [⟨1000, false⟩, ⟨500, false⟩, ⟨-2000, false⟩]
        = (([⟨1000, false⟩, ⟨500, false⟩, ⟨-2000, false⟩].takeWhile
              (fun x : MinerShare =>
                decide (1000 - P2POOL_WINDOW_SIZE ≤ x.side_height))).length,
           (([⟨1000, false⟩, ⟨500, false⟩, ⟨-2000, false⟩].takeWhile
              (fun x : MinerShare =>
                decide (1000 - P2POOL_WINDOW_SIZE ≤ x.side_height))).filter
             (fun x => x.uncle)).length))
    ∧ countActive (1000 - P2POOL_WINDOW_SIZE)
        (([⟨1000, false⟩, ⟨500, false⟩, ⟨-2000, false⟩].takeWhile
            (fun x : MinerShare =>
              decide (1000 - P2POOL_WINDOW_SIZE ≤ x.side_height)))
          ++ (⟨-3000, false⟩ : MinerShare) :: [])
      = countActive (1000 - P2POOL_WINDOW_SIZE)
          ([⟨1000, false⟩, ⟨500, false⟩, ⟨-2000, false⟩].takeWhile
            (fun x : MinerShare =>
              decide (1000 - P2POOL_WINDOW_SIZE ≤ x.side_height)))
    ∧ (get_p2pool_stats "addr" (Resp.ok [⟨0, 0⟩, ⟨7, 0⟩])
        (Resp.ok [⟨1000, false⟩])
        (Resp.ok [⟨1000, false⟩, ⟨500, false⟩, ⟨-2000, false⟩])
        (Resp.ok 1) (Resp.ok 2)).map PoolStats.active_shares = some 2 :=
  countActive_window_prefix 1000
    [⟨1000, false⟩, ⟨500, false⟩, ⟨-2000, false⟩] [] ⟨-3000, false⟩
    (by decide)

/-- C2: when the network-wide latest-share query returns an empty list, the
reconciliation still succeeds, reporting zero active shares and uncles and
the all-time total taken from the miner-info response, whatever the
remaining responses are. -/
theorem pool_empty_network_snapshot (addr : String) (h : addr ≠ "")
    (buckets : List ShareBucket) (ms : Resp (List MinerShare))
    (blocks payouts : Resp Nat) :
    get_p2pool_stats addr (Resp.ok buckets) (Resp.ok []) ms blocks payouts
      = some ⟨IntOrNA.na, 0, IntOrNA.na, 0, 0, totalSharesOf buckets⟩ := by
  simp [get_p2pool_stats, h]

/-- C2 witness: a miner with 7 all-time shares on a network with no shares,
with the remaining requests failing. -/
theorem pool_empty_network_snapshot_witness :
    get_p2pool_stats "a" (Resp.ok [⟨5, 0⟩, ⟨7, 1⟩]) (Resp.ok [])
      Resp.fail Resp.fail Resp.fail
      = some ⟨IntOrNA.na, 0, IntOrNA.na, 0, 0, 7⟩ :=
  pool_empty_network_snapshot "a" (by decide) [⟨5, 0⟩, ⟨7, 1⟩]
    Resp.fail Resp.fail Resp.fail

/-- C10: every successful reconciliation returns the manually recomputed
in-window share count in both the shares-held and the active-shares
positions of the result tuple. -/
theorem shares_held_eq_active_shares (addr : String)
    (info : Resp (List ShareBucket)) (ls ms : Resp (List MinerShare))
    (blocks payouts : Resp Nat) (t : PoolStats)
    (hok : get_p2pool_stats addr info ls ms blocks payouts = some t) :
    t.shares_held = t.active_shares := by
  unfold get_p2pool_stats at hok
  split at hok
  · simp at hok
  · cases info with
    | fail => simp at hok
    | ok shares_data =>
      cases ls with
      | fail => simp at hok
      | ok ls_data =>
        cases ls_data with
        | nil =>
          rw [Option.some_inj] at hok
          subst hok; rfl
        | cons first rest =>
          cases ms with
          | fail => simp at hok
          | ok miner_shares =>
            rw [Option.some_inj] at hok
            subst hok; rfl

/-- C10 witness: the theorem applied to a concrete successful
reconciliation. -/
theorem shares_held_eq_active_shares_witness :
    (⟨IntOrNA.na, 0, IntOrNA.na, 0, 0, 0⟩ : PoolStats).shares_held
      = (⟨IntOrNA.na, 0, IntOrNA.na, 0, 0, 0⟩ : PoolStats).active_shares :=
  shares_held_eq_active_shares "a" (Resp.ok []) (Resp.ok []) (Resp.ok [])
    Resp.fail Resp.fail ⟨IntOrNA.na, 0, IntOrNA.na, 0, 0, 0⟩ (by decide)

/-- C3 counterexample: a 2xx response whose JSON body lacks the nested
hashrate field does not make the probe return the absent value — the
`.get` defaults turn it into a present hashrate of 0. -/
theorem monero_missing_field_present :
    get_monero_hashrate (MinerResp.ok (Json.obj [])) = some (Json.num 0)
    ∧ get_monero_hashrate (MinerResp.ok (Json.obj [])) ≠ none := by
  refine ⟨rfl, ?_⟩
  rw [show get_monero_hashrate (MinerResp.ok (Json.obj []))
        = some (Json.num 0) from rfl]
  exact Option.some_ne_none _

/-- C3 amended: every network failure, non-2xx status, or JSON decode
failure makes the probe return the absent value, and the probe never
raises; but a 2xx JSON body lacking the nested hashrate field yields the
default hashrate 0 (a present value), while a body whose `hashrate.total`
is an empty array yields the absent value. -/
theorem monero_failure_absent (r : MinerResp)
    (h : ∀ b, r ≠ MinerResp.ok b) :
    get_monero_hashrate r = none
    ∧ get_monero_hashrate (MinerResp.ok (Json.obj [])) = some (Json.num 0)
    ∧ get_monero_hashrate (MinerResp.ok (Json.obj
        [("hashrate", Json.obj [("total", Json.arr [])])])) = none := by
  refine ⟨?_, rfl, rfl⟩
  cases r with
  | ok body => exact absurd rfl (h body)
  | timeout => rfl
  | connError => rfl
  | httpError => rfl
  | jsonError => rfl

/-- C3 witness: the amended theorem applied to a timeout. -/
theorem monero_failure_absent_witness :
    get_monero_hashrate MinerResp.timeout = none
    ∧ get_monero_hashrate (MinerResp.ok (Json.obj [])) = some (Json.num 0)
    ∧ get_monero_hashrate (MinerResp.ok (Json.obj
        [("hashrate", Json.obj [("total", Json.arr [])])])) = none :=
  monero_failure_absent MinerResp.timeout (fun _ hb => MinerResp.noConfusion hb)

/-- A replaced row is found by `find?` when the replacement matches the
predicate and some original row matched. -/
lemma find_replace {α : Type} (p : α → Bool) (row : α) (hrow : p row = true) :
    ∀ l : List α, l.any p = true →
      (l.map (fun r => if p r then row else r)).find? p = some row := by
  intro l
  induction l with
  | nil => simp
  | cons a l ih =>
    intro h
    by_cases ha : p a
    · simp [List.find?_cons, ha, hrow]
    · simp only [List.any_cons, ha, Bool.false_or] at h
      simp [List.find?_cons, ha, ih h]

/-- A freshly appended row is found by `find?` when no earlier row
matches. -/
lemma find_append_single {α : Type} (p : α → Bool) (row : α)
    (hrow : p row = true) :
    ∀ l : List α, l.any p = false → (l ++ [row]).find? p = some row := by
  intro l
  induction l with
  | nil => simp [List.find?_cons, hrow]
  | cons a l ih =>
    intro h
    simp only [List.any_cons, Bool.or_eq_false_iff] at h
    simp [List.find?_cons, h.1, ih h.2]

/-- After an upsert, the current row stored for the host is exactly the
freshly written row, on the insert path and on the update path alike. -/
lemma upsert_findMiner (db : SentinelDB) (now : Int) (host : String)
    (hr cpu ram : Option ℚ) :
    (db.upsert_miner now host hr cpu ram).findMiner host
      = some ⟨host, now, hr, cpu, ram, statusOf hr⟩ := by
  unfold SentinelDB.upsert_miner SentinelDB.findMiner
  cases h : db.miners.any (fun r => r.host == host) with
  | true =>
    simp only [h, if_true]
    exact find_replace _ _ (by simp) _ h
  | false =>
    simp only [h, Bool.false_eq_true, if_false]
    exact find_append_single _ _ (by simp) _ h

/-- C6: after any miner upsert the stored status is "Offline" exactly when
the supplied hashrate is absent, and "Online" for every present rational
hashrate, 0 included. -/
theorem upsert_status (db : SentinelDB) (now : Int) (host : String)
    (hr cpu ram : Option ℚ) :
    ((db.upsert_miner now host hr cpu ram).findMiner host).map MinerRow.status
      = some (statusOf hr)
    ∧ (statusOf hr = "Offline" ↔ hr = none)
    ∧ ∀ q : ℚ, statusOf (some q) = "Online" := by
  refine ⟨?_, ?_, fun q => rfl⟩
  · rw [upsert_findMiner]; rfl
  · cases hr <;> simp [statusOf]

/-- C7: every miner upsert appends exactly one history row, on the insert
path and on the update path alike, and the current row and the appended
history row carry the same capture timestamp. -/
theorem upsert_history (db : SentinelDB) (now : Int) (host : String)
    (hr cpu ram : Option ℚ) :
    (db.upsert_miner now host hr cpu ram).minerHistory
      = db.minerHistory ++ [⟨host, now, hr, cpu, ram, statusOf hr⟩]
    ∧ (db.upsert_miner now host hr cpu ram).minerHistory.length
      = db.minerHistory.length + 1
    ∧ ((db.upsert_miner now host hr cpu ram).findMiner host).map
        MinerRow.last_seen = some now
    ∧ ((db.upsert_miner now host hr cpu ram).minerHistory.getLast?).map
        MinerHistRow.timestamp = some now := by
  refine ⟨rfl, by simp [SentinelDB.upsert_miner], ?_, ?_⟩
  · rw [upsert_findMiner]; rfl
  · simp [SentinelDB.upsert_miner]

/-- C8: the purge keeps a history row (miner and pool alike) exactly when
its timestamp is at least the cutoff `now - days * 86400` — it deletes all
and only the strictly older history rows — and leaves the miners,
p2pool_stats and alerts tables untouched. -/
theorem cleanup_frame (db : SentinelDB) (now days : Int) :
    (∀ r : MinerHistRow, r ∈ (db.cleanup_old_data now days).minerHistory ↔
        (r ∈ db.minerHistory ∧ now - days * 86400 ≤ r.timestamp))
    ∧ (∀ r : PoolHistRow, r ∈ (db.cleanup_old_data now days).p2poolHistory ↔
        (r ∈ db.p2poolHistory ∧ now - days * 86400 ≤ r.timestamp))
    ∧ (db.cleanup_old_data now days).miners = db.miners
    ∧ (db.cleanup_old_data now days).p2poolStats = db.p2poolStats
    ∧ (db.cleanup_old_data now days).alerts = db.alerts := by
  refine ⟨fun r => ?_, fun r => ?_, rfl, rfl, rfl⟩ <;>
    simp [SentinelDB.cleanup_old_data, List.mem_filter, not_lt]

/-- C9: acknowledging an alert id absent from the store changes nothing
(and cannot raise, the operation being total), and acknowledging any id
twice leaves the store as acknowledging it once. -/
theorem acknowledge_noop_idempotent (db db2 : SentinelDB) (aid aid2 : Nat)
    (h : ∀ a ∈ db.alerts, a.id ≠ aid) :
    db.acknowledge_alert aid = db
    ∧ (db2.acknowledge_alert aid2).acknowledge_alert aid2
        = db2.acknowledge_alert aid2 := by
  constructor
  · unfold SentinelDB.acknowledge_alert
    have hmap : db.alerts.map (fun a =>
        if a.id == aid then { a with acknowledged := true } else a)
        = db.alerts := by
      conv_rhs => rw [← List.map_id db.alerts]
      apply List.map_congr_left
      intro a ha
      simp [h a ha]
    rw [hmap]
  · unfold SentinelDB.acknowledge_alert
    simp only [List.map_map]
    congr 1
    apply List.map_congr_left
    intro a _
    by_cases ha : a.id == aid2 <;> simp [ha, Function.comp]

/-- C9 witness: acknowledging the unknown id 5 on a one-alert store is a
no-op, and acknowledging the existing id 1 twice equals acknowledging it
once. -/
theorem acknowledge_noop_idempotent_witness :
    (SentinelDB.acknowledge_alert ⟨[], [], [], [],
        [⟨1, 0, "t", "d", false, "low", none, none⟩], 2⟩ 5
      = ⟨[], [], [], [], [⟨1, 0, "t", "d", false, "low", none, none⟩], 2⟩)
    ∧ ((SentinelDB.acknowledge_alert (SentinelDB.acknowledge_alert
          ⟨[], [], [], [], [⟨1, 0, "t", "d", false, "low", none, none⟩], 2⟩ 1) 1)
        = SentinelDB.acknowledge_alert
          ⟨[], [], [], [], [⟨1, 0, "t", "d", false, "low", none, none⟩], 2⟩ 1) :=
  acknowledge_noop_idempotent
    ⟨[], [], [], [], [⟨1, 0, "t", "d", false, "low", none, none⟩], 2⟩
    ⟨[], [], [], [], [⟨1, 0, "t", "d", false, "low", none, none⟩], 2⟩
    5 1 (by decide)

/-- C4 counterexample: with no prior stored records, the events (A, M1)
then (A, M2) persist exactly one alert, but a third event (A, M3) arriving
10 seconds after that alert persists a second one — the cooldown record is
kept per (ip, mac) pair and the pair (A, M3) has never been alerted, so the
claimed suppression does not happen. -/
theorem spoof_third_event_alerts :
    (runEvents (c4Events.take 2) nidsEmpty).db.alerts.length = 1
    ∧ (runEvents (c4Events.take 3) nidsEmpty).db.alerts.length = 2 := by
  decide

/-- C4 amended: the second event (A, M2) persists exactly one
high-severity alert; a third event (A, M3) within the cooldown introduces a
new (ip, mac) pair and persists a second alert while updating the in-memory
binding; events whose (ip, mac) pair was already alerted within the past 24
hours (the flips back to M2 at t=30 and to M3 at t=40) persist no new alert
while still updating the in-memory binding; and once the (A, M2) cooldown
has expired (t=100000) the same event alerts again. -/
theorem spoof_cooldown_per_pair :
    (runEvents (c4Events.take 2) nidsEmpty).db.alerts.length = 1
    ∧ (∀ a ∈ (runEvents (c4Events.take 2) nidsEmpty).db.alerts,
        a.severity = "high")
    ∧ (runEvents (c4Events.take 3) nidsEmpty).db.alerts.length = 2
    ∧ (runEvents (c4Events.take 3) nidsEmpty).arpTable.lookup "A" = some "M3"
    ∧ (runEvents (c4Events.take 4) nidsEmpty).db.alerts.length = 2
    ∧ (runEvents (c4Events.take 4) nidsEmpty).arpTable.lookup "A" = some "M2"
    ∧ (runEvents (c4Events.take 5) nidsEmpty).db.alerts.length = 2
    ∧ (runEvents c4Events nidsEmpty).db.alerts.length = 3
    ∧ (∀ a ∈ (runEvents c4Events nidsEmpty).db.alerts,
        a.severity = "high") := by
  decide

/-- After `arp_table[ip] = mac` the in-memory table maps `ip` to `mac`. -/
lemma lookup_setArpTable (t : List (String × String)) (ip mac : String) :
    (setArpTable t ip mac).lookup ip = some mac := by
  unfold setArpTable
  cases h : t.any (fun p => p.1 == ip) with
  | true =>
    simp only [h, if_true]
    induction t with
    | nil => simp at h
    | cons p t ih =>
      obtain ⟨k, v⟩ := p
      by_cases hk : k = ip
      · subst hk
        have hhead : (if ((k, v).1 == k) = true then (k, mac) else (k, v))
            = (k, mac) := by simp
        rw [List.map_cons, hhead]
        simp [List.lookup]
      · have hk2 : (k == ip) = false := by simp [hk]
        have hhead : (if ((k, v).1 == ip) = true then (ip, mac) else (k, v))
            = (k, v) := by simp [hk2]
        rw [List.map_cons, hhead]
        simp only [List.any_cons, hk2, Bool.false_or] at h
        have hne : (ip == k) = false := by simp [Ne.symm hk]
        simp only [List.lookup, hne]
        exact ih h
  | false =>
    simp only [h, Bool.false_eq_true, if_false]
    induction t with
    | nil => simp [List.lookup]
    | cons p t ih =>
      obtain ⟨k, v⟩ := p
      simp only [List.any_cons, Bool.or_eq_false_iff] at h
      have hne : (ip == k) = false := by
        have hx : ¬ k = ip := by simpa using h.1
        simp [Ne.symm hx]
      rw [List.cons_append]
      simp only [List.lookup, hne]
      exact ih h.2

/-- C5: every ARP request or reply event, whether it alerts, is suppressed,
or is normal traffic, leaves the in-memory table mapping the source IP to
the newly observed MAC and appends exactly one durable quiet log entry. -/
theorem spoof_always_logs_and_updates (now : Int) (pkt : ArpPacket)
    (st : NidsState) (hop : pkt.op = 1 ∨ pkt.op = 2) :
    ((arp_spoof_detector now pkt st).arpTable.lookup pkt.psrc
        = some pkt.hwsrc)
    ∧ (arp_spoof_detector now pkt st).arp.log.length
        = st.arp.log.length + 1 := by
  cases hl : st.arpTable.lookup pkt.psrc with
  | none =>
    constructor
    · simp only [arp_spoof_detector, if_pos hop, hl]
      exact lookup_setArpTable _ _ _
    · simp [arp_spoof_detector, if_pos hop, hl, update_arp_entry]
  | some prevMac =>
    by_cases hm : prevMac = pkt.hwsrc
    · constructor
      · simp only [arp_spoof_detector, if_pos hop, hl, hm, ne_eq,
          not_true_eq_false, if_false]
        exact lookup_setArpTable _ _ _
      · simp [arp_spoof_detector, if_pos hop, hl, hm, update_arp_entry]
    · constructor
      · simp only [arp_spoof_detector, if_pos hop, hl, ne_eq, hm,
          not_false_eq_true, if_true]
        exact lookup_setArpTable _ _ _
      · simp only [arp_spoof_detector, if_pos hop, hl, ne_eq, hm,
          not_false_eq_true, if_true]
        by_cases hs : (match get_arp_entry st.arp pkt.psrc pkt.hwsrc with
          | some e => match e.last_alerted with
            | some t => decide (86400 ≤ now - t)
            | none => true
          | none => true) = true
        · simp [hs, update_arp_entry]
        · simp [hs, update_arp_entry]

/-- C5 witness: the theorem applied to an ARP request for (A, M1) on the
fresh state. -/
theorem spoof_always_logs_and_updates_witness :
    ((arp_spoof_detector 0 ⟨1, "A", "M1"⟩
        ⟨⟨[], [], [], [], [], 0⟩, ⟨[], []⟩, []⟩).arpTable.lookup "A"
      = some "M1")
    ∧ (arp_spoof_detector 0 ⟨1, "A", "M1"⟩
        ⟨⟨[], [], [], [], [], 0⟩, ⟨[], []⟩, []⟩).arp.log.length = 1 :=
  spoof_always_logs_and_updates 0 ⟨1, "A", "M1"⟩
    ⟨⟨[], [], [], [], [], 0⟩, ⟨[], []⟩, []⟩ (Or.inl rfl)
